import Mathlib

/-!
Verification development for the docuMind repository.

The development shallowly embeds the parts of the code that the claims
are about:

* the chat message rendering of the second `ChatInterface` component
  (`src/unnamed/part_001`): the displayed-text strip
  `message.text.replace(/\s*\([Ss]ource:.*?\)\s*$/, "")`, the
  citation-shown test `message.text.match(/\([Ss]ource:.*?\)$/i)`, and
  `formatSourceCitation` with its inner regex
  `/\([Ss]ource: (.*?)(, page (\d+))?\)$/i`;
* the express handlers of `src/api/index.js`: `/api/save-text`,
  `/api/upload-document` and `/api/chat`, with the external services
  (PDF loader, vector store, model client) passed in as explicit
  oracles.

JavaScript regex semantics are modelled faithfully for these three
concrete patterns: a non-global `replace` removes the leftmost match;
`$` (no `m` flag) matches only at the very end of the string; `.`
(no `s` flag) matches anything but a line terminator; `\s` is the
JavaScript whitespace class; the `i` flag makes letters of the pattern
case-insensitive.
-/

namespace DocuMind

/-- JavaScript `\s` character class (WhiteSpace plus LineTerminator). -/
def isJsSpace (c : Char) : Bool :=
  c == ' ' || c == '\t' || c == '\n' || c == '\x0b' || c == '\x0c' ||
  c == '\r' || c == ' ' || c == ' ' ||
  (0x2000 ≤ c.toNat && c.toNat ≤ 0x200a) ||
  c == ' ' || c == ' ' || c == ' ' || c == ' ' ||
  c == '　' || c == '﻿'

/-- JavaScript line terminators: `.` without the `s` flag matches every
character except these. -/
def isLineTerm (c : Char) : Bool :=
  c == '\n' || c == '\r' || c == ' ' || c == ' '

/-- Case-insensitive single-character pattern match (for `i`-flagged
patterns; the stored pattern character is lowercase). -/
def matchCI (pat c : Char) : Bool := c == pat || c.toLower == pat

/-- Strip a case-insensitive pattern from the front of the input,
returning the rest on success. -/
def stripCI : List Char → List Char → Option (List Char)
  | [], l => some l
  | _ :: _, [] => none
  | p :: ps, c :: cs => if matchCI p c then stripCI ps cs else none

/-- Strip an exact (case-sensitive) pattern from the front of the input. -/
def stripExact : List Char → List Char → Option (List Char)
  | [], l => some l
  | _ :: _, [] => none
  | p :: ps, c :: cs => if c == p then stripExact ps cs else none

/-- The characters `ource:` shared by the two outer citation regexes. -/
def ourceChars : List Char := ['o', 'u', 'r', 'c', 'e', ':']

/-- The characters `ource: ` of the `formatSourceCitation` regex
(note the literal space after the colon, present only there). -/
def ourceSpChars : List Char := ['o', 'u', 'r', 'c', 'e', ':', ' ']

/-- The characters `, page ` of the optional page group of the
`formatSourceCitation` regex. -/
def pageChars : List Char := [',', ' ', 'p', 'a', 'g', 'e', ' ']

/-!
### The displayed-text strip (ChatInterface message body)

`message.text.replace(/\s*\([Ss]ource:.*?\)\s*$/, "")`: any match of
this pattern necessarily extends to the end of the string (the `$`),
so the non-global replace deletes the suffix starting at the leftmost
position where the tail of the string decomposes as
whitespace* `(` [Ss] `ource:` line-terminator-free* `)` whitespace*.
-/

/-- Does the input decompose as `m ++ ')' :: t` with `m` free of line
terminators and `t` all JavaScript whitespace?  This is `.*?\)\s*$`
of the replace pattern. -/
def closeSplit : List Char → Bool
  | [] => false
  | c :: rest => (c == ')' && rest.all isJsSpace) || (!isLineTerm c && closeSplit rest)

/-- Does the input match `\([Ss]ource:.*?\)\s*$` (anchored at its front)? -/
def parenCore (l : List Char) : Bool :=
  match l with
  | c0 :: c1 :: rest =>
    c0 == '(' && (c1 == 'S' || c1 == 's') &&
      (match stripExact ourceChars rest with
       | some r => closeSplit r
       | none => false)
  | _ => false

/-- Does the input match `\s*\([Ss]ource:.*?\)\s*$` (anchored at its
front and extending to its end)? -/
def tailMatch : List Char → Bool
  | [] => false
  | c :: rest => parenCore (c :: rest) || (isJsSpace c && tailMatch rest)

/-- The replace: keep characters until the leftmost position whose tail
matches, then drop the rest (the whole match reaches the end of the
string). -/
def displayList : List Char → List Char
  | [] => []
  | c :: rest => if tailMatch (c :: rest) then [] else c :: displayList rest

/-- Displayed text of a chat message:
`message.text.replace(/\s*\([Ss]ource:.*?\)\s*$/, "")`. -/
def displayedText (s : String) : String := ⟨displayList s.data⟩

/-!
### The citation-shown test (ChatInterface citation block)

`message.text.match(/\([Ss]ource:.*?\)$/i)`: the `i` flag makes
`ource:` case-insensitive, there is no trailing `\s*`, so the final
character of the string must be the closing parenthesis.  `match`
without the `g` flag returns the leftmost match, which again always
extends to the end of the string.
-/

/-- Does the input decompose as `m ++ [')']` with `m` free of line
terminators?  This is `.*?\)$` of the `i`-flagged pattern. -/
def closeEnd : List Char → Bool
  | [] => false
  | [c] => c == ')'
  | c :: rest => !isLineTerm c && closeEnd rest

/-- Does the input match `\([Ss]ource:.*?\)$` (anchored at its front and
reaching the very end)? -/
def anchorAt (l : List Char) : Bool :=
  match l with
  | c0 :: c1 :: rest =>
    c0 == '(' && (c1 == 'S' || c1 == 's') &&
      (match stripCI ourceChars rest with
       | some r => closeEnd r
       | none => false)
  | _ => false

/-- The leftmost match of `/\([Ss]ource:.*?\)$/i`, as the matched
substring (which always runs to the end of the string), if any. -/
def citeTag : List Char → Option (List Char)
  | [] => none
  | c :: rest => if anchorAt (c :: rest) then some (c :: rest) else citeTag rest

/-- Is the citation block rendered for this raw message text
(ignoring the sender condition)? -/
def citeShown (s : String) : Bool := (citeTag s.data).isSome

/-- The matched citation tag handed to `formatSourceCitation`
(`match[0]` of the citation-shown test). -/
def citeText (s : String) : Option String := (citeTag s.data).map (⟨·⟩)

/-!
### `formatSourceCitation`

```js
const filePathMatch = sourceCitation.match(/\([Ss]ource: (.*?)(, page (\d+))?\)$/i);
if (filePathMatch) {
  const path = filePathMatch[1];
  const pageInfo = filePathMatch[3] ? `, page ${filePathMatch[3]}` : "";
  if (path.startsWith("http") || path.includes("://")) {
    return `(Source: ${path}${pageInfo})`;
  }
  const filename = path.includes("/") ? path.split("/").pop() : path;
  if (filename) {
    return `(Source: ${filename}${pageInfo})`;
  }
}
return sourceCitation;
```

The lazy group `(.*?)` takes the shortest path such that the rest of
the pattern matches, and at each length the optional page group is
preferred over the immediate `\)`.
-/

/-- Parse `d ++ [')']` where `d` is a digit string (possibly empty);
returns the digits.  Nothing may follow the parenthesis (the `$`). -/
def digitsClose : List Char → Option (List Char)
  | [] => none
  | [c] => if c == ')' then some [] else none
  | c :: rest => if c.isDigit then (digitsClose rest).map (c :: ·) else none

/-- Parse `, page <digits>)` (case-insensitive `page`, at least one
digit) at the very end of the input; returns the digits. -/
def pageClose (l : List Char) : Option (List Char) :=
  match stripCI pageChars l with
  | some r =>
    match digitsClose r with
    | some d => if d.isEmpty then none else some d
    | none => none
  | none => none

/-- The body after `([Ss]ource: ` : lazily grow group 1 until either the
optional page group followed by `\)$`, or `\)$` directly, matches.
Returns (group 1, optional page digits). -/
def citationBody : List Char → Option (List Char × Option (List Char))
  | [] => none
  | c :: rest =>
    match pageClose (c :: rest) with
    | some d => some ([], some d)
    | none =>
      if c == ')' && rest.isEmpty then some ([], none)
      else if isLineTerm c then none
      else (citationBody rest).map (fun pr => (c :: pr.1, pr.2))

/-- Try to match `\([Ss]ource: ` at the front of the input, returning
the remainder. -/
def sourceOpen (l : List Char) : Option (List Char) :=
  match l with
  | c0 :: c1 :: rest =>
    if c0 == '(' && (c1 == 'S' || c1 == 's') then stripCI ourceSpChars rest else none
  | _ => none

/-- Leftmost match of `/\([Ss]ource: (.*?)(, page (\d+))?\)$/i`:
try every start position in order. -/
def findCite : List Char → Option (List Char × Option (List Char))
  | [] => none
  | c :: rest =>
    match sourceOpen (c :: rest) with
    | some r =>
      match citationBody r with
      | some pr => some pr
      | none => findCite rest
    | none => findCite rest

/-- The groups of the `formatSourceCitation` regex: `path` is group 1,
`page` the digits of group 3 when the page group matched. -/
structure CiteParse where
  path : String
  page : Option String
deriving DecidableEq

/-- `sourceCitation.match(/\([Ss]ource: (.*?)(, page (\d+))?\)$/i)`
as a structured result. -/
def parseCiteTag (s : String) : Option CiteParse :=
  (findCite s.data).map (fun pr => ⟨⟨pr.1⟩, pr.2.map (⟨·⟩)⟩)

/-- The classification implicit in the branches of
`formatSourceCitation`. -/
inductive CiteKind where
  | url
  | file
deriving DecidableEq

/-- Substring test, modelling JavaScript `String.prototype.includes`. -/
def hasSubstr (pat : List Char) : List Char → Bool
  | [] => pat.isEmpty
  | c :: rest => pat.isPrefixOf (c :: rest) || hasSubstr pat rest

/-- JavaScript `String.prototype.startsWith`, at the character level. -/
def startsWithStr (s pat : String) : Bool := pat.data.isPrefixOf s.data

/-- `path.startsWith("http") || path.includes("://")` : the branch
condition of `formatSourceCitation`. -/
def citeKindOf (path : String) : CiteKind :=
  if startsWithStr path "http" || hasSubstr "://".data path.data then .url else .file

/-- `path.split("/").pop()` : the text after the last slash. -/
def afterLastSlash (l : List Char) : List Char :=
  l.foldl (fun acc c => if c == '/' then [] else acc ++ [c]) []

/-- The identifier displayed by `formatSourceCitation`: the full path
for a URL, the last path segment otherwise. -/
def citeIdentOf (path : String) : String :=
  match citeKindOf path with
  | .url => path
  | .file => if path.data.contains '/' then ⟨afterLastSlash path.data⟩ else path

/-- The `pageInfo` string of `formatSourceCitation`:
`, page ${filePathMatch[3]}` when the page group matched, else empty. -/
def pageInfoStr : Option String → String
  | some d => ", page " ++ d
  | none => ""

/-- `formatSourceCitation` of `ChatInterface`
(`src/unnamed/part_001`, lines 634-660). -/
def formatSourceCitation (sourceCitation : String) : String :=
  match parseCiteTag sourceCitation with
  | none => sourceCitation
  | some pr =>
    let pageInfo : String := pageInfoStr pr.page
    match citeKindOf pr.path with
    | .url => "(Source: " ++ pr.path ++ pageInfo ++ ")"
    | .file =>
      let filename := if pr.path.data.contains '/' then (⟨afterLastSlash pr.path.data⟩ : String) else pr.path
      if filename ≠ "" then "(Source: " ++ filename ++ pageInfo ++ ")" else sourceCitation

/-- A well-formed citation tag string: `(Source: <text>)` or
`(Source: <text>, page <digits>)`. -/
def tagOf (text : String) (pg : Option String) : String :=
  "(Source: " ++ text ++ pageInfoStr pg ++ ")"

/-- Helper for the spec-side URL-scheme notion: after the initial
letter, scheme characters followed by a colon. -/
def schemeTail : List Char → Bool
  | [] => false
  | c :: rest =>
    c == ':' || ((c.isAlpha || c.isDigit || c == '+' || c == '-' || c == '.') && schemeTail rest)

/-- Modelled from the spec, section 4.6: the notion that the citation
text "begins with a URL scheme", read per the RFC 3986 scheme grammar
(a letter followed by letters, digits, `+`, `-` or `.`, then a colon).
The code itself has no such notion: it tests `startsWith("http")`. -/
def specBeginsWithUrlScheme (s : String) : Bool :=
  match s.data with
  | c :: rest => c.isAlpha && schemeTail rest
  | [] => false

/-!
### Message rendering

The message body always shows `displayedText`; the citation block is
rendered only for `message.sender === "ai"` and a successful
citation-shown match, in which case `formatSourceCitation` is applied
to the matched tag.
-/

/-- Chat message sender. -/
inductive Sender where
  | user
  | ai
deriving DecidableEq

/-- What the component renders for one message. -/
structure Rendered where
  displayed : String
  citation : Option String
deriving DecidableEq

/-- Rendering of one chat message (`src/unnamed/part_001`,
lines 771-816). -/
def renderMessage (sender : Sender) (text : String) : Rendered :=
  { displayed := displayedText text
    citation :=
      if sender = Sender.ai then
        match citeTag text.data with
        | some tagL => some (formatSourceCitation ⟨tagL⟩)
        | none => none
      else none }

/-!
### The express handlers of `src/api/index.js`

The external collaborators (PDF loader, Qdrant vector store, OpenAI
client) are passed in as explicit oracles: the PDF loader outcome is an
`Except` value, the store outcome for the n-th connection attempt is
given by a function of the attempt index (the handlers only ever use
attempt 0 — there is no retry loop anywhere in the file), and the
handlers additionally report how many store attempts they made and
which document lists they handed to the store.
-/

/-- A langchain `Document`: page content plus a metadata object,
modelled as a key-value list. -/
structure Doc where
  pageContent : String
  metadata : List (String × String)
deriving DecidableEq

/-- Responses of the upload endpoint (status and JSON fields). -/
inductive UploadRes where
  | badRequest (error : String)
  | serverError (error : String) (details : String)
  | ok (message : String)
deriving DecidableEq

/-- The `/api/upload-document` handler (`src/api/index.js`,
lines 124-208).  `ext` is the lowercased file extension,
`pdfLoad` the outcome of `new PDFLoader(filePath).load()`,
`storeOutcome` the outcome of `QdrantVectorStore.fromDocuments`
(`none` = success).  The second component records every document list
passed to the store. -/
def uploadDocument (hasFile : Bool) (originalname : String) (ext : String)
    (pdfLoad : Except String (List Doc)) (csvContent : String) (ts : String)
    (storeOutcome : List Doc → Option String) : UploadRes × List (List Doc) :=
  if !hasFile then (.badRequest "No file uploaded", [])
  else if ext = ".pdf" then
    match pdfLoad with
    | .error e => (.serverError "Failed to process PDF file" e, [])
    | .ok docs =>
      match storeOutcome docs with
      | some e => (.serverError "Failed to store documents in vector database" e, [docs])
      | none => (.ok "Document processed and saved successfully", [docs])
  else if ext = ".csv" then
    let docs : List Doc :=
      [⟨csvContent, [("source", originalname), ("type", "csv"), ("timestamp", ts)]⟩]
    match storeOutcome docs with
    | some e => (.serverError "Failed to store documents in vector database" e, [docs])
    | none => (.ok "Document processed and saved successfully", [docs])
  else (.badRequest "Unsupported file type", [])

/-- Responses of the save-text endpoint. -/
inductive SaveTextRes where
  | badRequest (error : String)
  | serverError (error : String)
  | ok (message : String)
deriving DecidableEq

/-- The `/api/save-text` handler (`src/api/index.js`, lines 98-121).
`storeOutcome n` is what the n-th store attempt would return
(`none` = success); the handler performs exactly one attempt.
Output: response, number of store attempts, documents built. -/
def saveTextHandler (text : Option String) (ts : String)
    (storeOutcome : Nat → Option String) : SaveTextRes × Nat × List Doc :=
  let t := text.getD ""
  if t = "" then (.badRequest "No text provided", 0, [])
  else
    let docs : List Doc := [⟨t, [("source", "user-input"), ("timestamp", ts)]⟩]
    match storeOutcome 0 with
    | some _ => (.serverError "Failed to save text", 1, docs)
    | none => (.ok "Text saved successfully", 1, docs)

/-- Responses of the chat endpoint. -/
inductive ChatRes where
  | badRequest (error : String)
  | serverError (error : String) (details : String)
  | answer (text : String)
deriving DecidableEq

/-- `asRetriever({ k: 5 })` : the number of documents the chat handler
asks the vector store for. -/
def retrieverK : Nat := 5

/-- A minimal model of `JSON.stringify` for strings (the exact escaping
of the external builtin is irrelevant to the claims). -/
def jsonStr (s : String) : String :=
  "\"" ++ ⟨s.data.flatMap (fun c =>
    if c = '"' then ['\\', '"']
    else if c = '\\' then ['\\', '\\']
    else if c = '\n' then ['\\', 'n']
    else [c])⟩ ++ "\""

/-- `JSON.stringify` of one langchain document (model of the external
builtin). -/
def docJson (d : Doc) : String :=
  "\x7b\"pageContent\":" ++ jsonStr d.pageContent ++ ",\"metadata\":\x7b" ++
    String.intercalate "," (d.metadata.map (fun kv => jsonStr kv.1 ++ ":" ++ jsonStr kv.2)) ++
    "\x7d\x7d"

/-- `JSON.stringify(relevantChunks)` (model of the external builtin). -/
def serializeDocs (ds : List Doc) : String :=
  "[" ++ String.intercalate "," (ds.map docJson) ++ "]"

/-- The fixed instruction text of `SYSTEM_PROMPT` up to `Context:`. -/
def promptHeader : String :=
  "You are an AI assistant that answers questions based on the provided context.\n    \n    Only answer based on the available context from the documents.\n    \n    At the end of your response, include a citation indicating the most relevant source for your answer, like this:\n    (Source: filename.pdf, page X) or (Source: user-input) or (Source: website URL)\n    \n    Follow these rules for the source citation:\n    1. Include only ONE source - the most relevant one\n    2. Always place it at the very end of your answer\n    3. Always use the format (Source: [details])\n    4. If the source is a file path, only include the filename, not the full path\n    5. The citation must be on the same line as the end of your answer\n    \n    Context:\n    "

/-- The `SYSTEM_PROMPT` template string of the chat handler: the fixed
instructions followed by every retrieved chunk, serialized. -/
def systemPrompt (chunks : List Doc) : String :=
  promptHeader ++ serializeDocs chunks

/-- Everything the chat handler produces: the HTTP response, the number
of store connection attempts, the chunks passed to prompt assembly, and
the system prompt sent to the model (when one was built). -/
structure ChatOut where
  res : ChatRes
  storeAttempts : Nat
  promptChunks : List Doc
  prompt : Option String
deriving DecidableEq

/-- The `/api/chat` handler (`src/api/index.js`, lines 289-346).
`conn n` is the outcome the n-th `fromExistingCollection` attempt would
have (the code performs exactly one, with no retry); `retrieve q k` is
`vectorRetriever.invoke(query)` for `asRetriever({ k })`; `gen p q` is
the chat-completion call.  Any thrown error is caught by the single
`catch` and reported as a 500 with `details: error.message`. -/
def chatHandler (query : Option String) (conn : Nat → Except String Unit)
    (retrieve : String → Nat → List Doc)
    (gen : String → String → Except String String) : ChatOut :=
  let q := query.getD ""
  if q = "" then ⟨.badRequest "No query provided", 0, [], none⟩
  else
    match conn 0 with
    | .error e => ⟨.serverError "Failed to generate response" e, 1, [], none⟩
    | .ok _ =>
      let chunks := retrieve q retrieverK
      let p := systemPrompt chunks
      match gen p q with
      | .error e => ⟨.serverError "Failed to generate response" e, 1, chunks, some p⟩
      | .ok ans => ⟨.answer ans, 1, chunks, some p⟩

end DocuMind

namespace DocuMind

/-!
### Shared lemmas about the displayed-text strip
-/

/-- The replace keeps a prefix: its result is `l.take n` for the least
`n` whose tail matches the pattern (or the whole list when none does). -/
theorem displayList_spec (l : List Char) :
    ∃ n, displayList l = l.take n ∧
      (n = l.length ∨ tailMatch (l.drop n) = true) ∧
      ∀ j < n, tailMatch (l.drop j) = false := by
  induction l with
  | nil => exact ⟨0, rfl, Or.inl rfl, fun j hj => absurd hj (Nat.not_lt_zero j)⟩
  | cons c rest ih =>
    cases hb : tailMatch (c :: rest) with
    | true =>
      exact ⟨0, by simp [displayList, hb], Or.inr hb,
        fun j hj => absurd hj (Nat.not_lt_zero j)⟩
    | false =>
      obtain ⟨n, h1, h2, h3⟩ := ih
      refine ⟨n + 1, ?_, ?_, ?_⟩
      · simp [displayList, hb, h1]
      · cases h2 with
        | inl hl => exact Or.inl (by simp [hl])
        | inr hr => exact Or.inr (by simpa using hr)
      · intro j hj
        cases j with
        | zero => simpa using hb
        | succ j => simpa using h3 j (Nat.lt_of_succ_lt_succ hj)

/-- When no tail of the input matches the pattern, the replace leaves
the input untouched. -/
theorem displayList_no_match (l : List Char)
    (h : ∀ j < l.length, tailMatch (l.drop j) = false) : displayList l = l := by
  induction l with
  | nil => rfl
  | cons c rest ih =>
    have h0 : tailMatch (c :: rest) = false := by simpa using h 0 (Nat.succ_pos _)
    have hr := ih (fun j hj => by simpa using h (j + 1) (Nat.succ_lt_succ hj))
    simp [displayList, h0, hr]

/-- C1: For the generator answer
`The answer is 42 (Source: report.pdf, page 4)`, the citation parser
produces displayed text `The answer is 42` (tag removed), classifies
the citation as a file, yields identifier `report.pdf`, and yields
page 4. -/
theorem C1_citation_example :
    displayedText "The answer is 42 (Source: report.pdf, page 4)" = "The answer is 42" ∧
    citeText "The answer is 42 (Source: report.pdf, page 4)" =
      some "(Source: report.pdf, page 4)" ∧
    parseCiteTag "(Source: report.pdf, page 4)" = some ⟨"report.pdf", some "4"⟩ ∧
    citeKindOf "report.pdf" = CiteKind.file ∧
    citeIdentOf "report.pdf" = "report.pdf" ∧
    formatSourceCitation "(Source: report.pdf, page 4)" = "(Source: report.pdf, page 4)" ∧
    renderMessage Sender.ai "The answer is 42 (Source: report.pdf, page 4)" =
      ⟨"The answer is 42", some "(Source: report.pdf, page 4)"⟩ := by
  decide

/-- C3 counterexample: a PDF upload whose extraction succeeds with zero
chunks is NOT rejected: the empty document list is passed to the vector
store and the handler reports success, contradicting the claimed
`EmptyExtraction` failure. -/
theorem C3_empty_extraction_cex :
    uploadDocument true "empty.pdf" ".pdf" (Except.ok []) "" "t0" (fun _ => none) =
      (UploadRes.ok "Document processed and saved successfully", [[]]) := by
  decide

/-- C3 amended: the upload handler has no empty-extraction check.  A
loader failure surfaces as a PDF-processing error with nothing passed
to the store, but a successful extraction — even one with zero
chunks — is passed to the store as-is and reported as success. -/
theorem C3_upload_no_empty_check (name cc ts e : String) (docs : List Doc)
    (st : List Doc → Option String) :
    uploadDocument true name ".pdf" (Except.error e) cc ts st =
      (UploadRes.serverError "Failed to process PDF file" e, []) ∧
    uploadDocument true name ".pdf" (Except.ok docs) cc ts (fun _ => none) =
      (UploadRes.ok "Document processed and saved successfully", [docs]) := by
  exact ⟨rfl, rfl⟩

/-- C4 counterexample: the store connection fails transiently on the
first attempt and would succeed on the second, yet the chat handler
makes exactly one attempt (not two) and surfaces the error without any
retry. -/
theorem C4_no_retry_cex :
    (chatHandler (some "q")
        (fun n => if n = 0 then Except.error "store unavailable" else Except.ok ())
        (fun _ _ => []) (fun _ _ => Except.ok "answer")).res =
      ChatRes.serverError "Failed to generate response" "store unavailable" ∧
    (chatHandler (some "q")
        (fun n => if n = 0 then Except.error "store unavailable" else Except.ok ())
        (fun _ _ => []) (fun _ _ => Except.ok "answer")).storeAttempts = 1 := by
  decide

/-- C4 amended: no store call is ever retried: for every outcome of the
external store, the chat handler and the save-text handler each perform
exactly one store attempt before responding. -/
theorem C4_store_attempted_once (q t ts : String) (conn : Nat → Except String Unit)
    (r : String → Nat → List Doc) (g : String → String → Except String String)
    (st : Nat → Option String) (hq : q ≠ "") (ht : t ≠ "") :
    (chatHandler (some q) conn r g).storeAttempts = 1 ∧
    (saveTextHandler (some t) ts st).2.1 = 1 := by
  constructor
  · simp only [chatHandler, Option.getD_some]
    rw [if_neg hq]
    cases conn 0 with
    | error e => rfl
    | ok u =>
      cases g (systemPrompt (r q retrieverK)) q with
      | error e => rfl
      | ok a => rfl
  · simp only [saveTextHandler, Option.getD_some]
    rw [if_neg ht]
    cases st 0 with
    | some e => rfl
    | none => rfl

/-- C4 witness: the single-attempt theorem at a concrete query and
note. -/
theorem C4_store_attempted_once_witness :
    (chatHandler (some "hi") (fun _ => Except.ok ()) (fun _ _ => [])
        (fun _ _ => Except.ok "a")).storeAttempts = 1 ∧
    (saveTextHandler (some "note") "t0" (fun _ => none)).2.1 = 1 :=
  C4_store_attempted_once "hi" "note" "t0" (fun _ => Except.ok ()) (fun _ _ => [])
    (fun _ _ => Except.ok "a") (fun _ => none) (by decide) (by decide)

/-- C5 counterexample: a failing query returns the internal error text
verbatim in the `details` field of the response, contradicting the
claim that internal error text is never exposed. -/
theorem C5_error_details_cex :
    (chatHandler (some "q") (fun _ => Except.error "connect ECONNREFUSED 127.0.0.1:6333")
        (fun _ _ => []) (fun _ _ => Except.ok "a")).res =
      ChatRes.serverError "Failed to generate response"
        "connect ECONNREFUSED 127.0.0.1:6333" := by
  decide

/-- C5 amended: every internal chat failure — store connection or
generation — produces a response whose `error` field is the fixed
generic text and whose `details` field carries the internal error
message verbatim, unconditionally (there is no development-mode
gate). -/
theorem C5_error_details_amended (q e : String)
    (r : String → Nat → List Doc) (g : String → String → Except String String)
    (hq : q ≠ "") :
    (chatHandler (some q) (fun _ => Except.error e) r g).res =
      ChatRes.serverError "Failed to generate response" e ∧
    (chatHandler (some q) (fun _ => Except.ok ()) r (fun _ _ => Except.error e)).res =
      ChatRes.serverError "Failed to generate response" e := by
  constructor
  · simp only [chatHandler, Option.getD_some]
    rw [if_neg hq]
  · simp only [chatHandler, Option.getD_some]
    rw [if_neg hq]

/-- C5 witness: the amended theorem at a concrete query and error. -/
theorem C5_error_details_amended_witness :
    (chatHandler (some "q") (fun _ => Except.error "boom") (fun _ _ => [])
        (fun _ _ => Except.ok "a")).res =
      ChatRes.serverError "Failed to generate response" "boom" ∧
    (chatHandler (some "q") (fun _ => Except.ok ()) (fun _ _ => [])
        (fun _ _ => Except.error "boom")).res =
      ChatRes.serverError "Failed to generate response" "boom" :=
  C5_error_details_amended "q" "boom" (fun _ _ => [])
    (fun _ _ => Except.ok "a") (by decide)

/-- C6 counterexample: the single chunk built for a CSV upload carries
`csv` under the metadata key `type`; there is no metadata key `kind`
at all, contradicting the claimed key. -/
theorem C6_metadata_kind_cex :
    (uploadDocument true "d.csv" ".csv" (Except.ok []) "a,b\n1,2" "t0" (fun _ => none)).2 =
      [[⟨"a,b\n1,2", [("source", "d.csv"), ("type", "csv"), ("timestamp", "t0")]⟩]] ∧
    ([("source", "d.csv"), ("type", "csv"), ("timestamp", "t0")] :
        List (String × String)).lookup "kind" = none := by
  decide

/-- C6 amended: every CSV ingestion passes the entire file content to
the store as exactly one chunk, whose metadata records `csv` under the
key `type` (not `kind`). -/
theorem C6_csv_single_chunk (name content ts : String)
    (pl : Except String (List Doc)) (st : List Doc → Option String) :
    (uploadDocument true name ".csv" pl content ts st).2 =
      [[⟨content, [("source", name), ("type", "csv"), ("timestamp", ts)]⟩]] ∧
    ([("source", name), ("type", "csv"), ("timestamp", ts)] :
        List (String × String)).lookup "type" = some "csv" ∧
    ([("source", name), ("type", "csv"), ("timestamp", ts)] :
        List (String × String)).lookup "kind" = none := by
  refine ⟨?_, rfl, rfl⟩
  cases h : st [⟨content, [("source", name), ("type", "csv"), ("timestamp", ts)]⟩] with
  | some e => simp [uploadDocument, h]
  | none => simp [uploadDocument, h]

/-- C9: the chat handler requests exactly `k = 5` chunks from the
vector store and hands every retrieved chunk, unfiltered, to prompt
assembly: the chunks serialized into the system prompt are exactly the
retriever's output. -/
theorem C9_retriever_k5_unfiltered (q : String) (conn : Nat → Except String Unit)
    (r : String → Nat → List Doc) (g : String → String → Except String String)
    (hq : q ≠ "") (hc : conn 0 = Except.ok ()) :
    retrieverK = 5 ∧
    (chatHandler (some q) conn r g).promptChunks = r q 5 ∧
    (chatHandler (some q) conn r g).prompt = some (systemPrompt (r q 5)) := by
  refine ⟨rfl, ?_, ?_⟩ <;>
  · simp only [chatHandler, Option.getD_some]
    rw [if_neg hq, hc]
    cases g (systemPrompt (r q retrieverK)) q with
    | error e => rfl
    | ok a => rfl

/-- C9 witness: the k = 5 pass-through theorem at a concrete query. -/
theorem C9_retriever_k5_unfiltered_witness :
    retrieverK = 5 ∧
    (chatHandler (some "hi") (fun _ => Except.ok ()) (fun _ _ => [])
        (fun _ _ => Except.ok "a")).promptChunks = [] ∧
    (chatHandler (some "hi") (fun _ => Except.ok ()) (fun _ _ => [])
        (fun _ _ => Except.ok "a")).prompt = some (systemPrompt []) :=
  C9_retriever_k5_unfiltered "hi" (fun _ => Except.ok ()) (fun _ _ => [])
    (fun _ _ => Except.ok "a") (by decide) rfl

/-- C2 counterexample: with a mid-answer span and a trailing tag on the
same line, the replace removes everything from the mid-answer
`(Source:` to the end — including answer text — instead of only the
final anchored tag. -/
theorem C2_midanswer_removed_cex :
    displayedText "foo (Source: a) bar (Source: b)" = "foo" ∧
    displayedText "foo (Source: a) bar (Source: b)" ≠ "foo (Source: a) bar" := by
  decide

/-- C2 amended: the replace removes at most one span, always a suffix:
the displayed text is `take n` for the least position `n` from which a
`(Source: ...)` span extends (over line-terminator-free characters) to
the end of the string modulo trailing whitespace; that leftmost
position may lie at a mid-answer `(Source:` occurrence, in which case
the intervening answer text is removed as well.  When no position
matches — in particular for any text whose `Source:` occurrences are
all mid-answer with no anchored trailing tag — the text is returned
unchanged. -/
theorem C2_display_strip_amended (s : String) :
    (∃ n, displayedText s = ⟨s.data.take n⟩ ∧
      (n = s.data.length ∨ tailMatch (s.data.drop n) = true) ∧
      ∀ j < n, tailMatch (s.data.drop j) = false) ∧
    ((∀ j < s.data.length, tailMatch (s.data.drop j) = false) → displayedText s = s) := by
  constructor
  · obtain ⟨n, h1, h2, h3⟩ := displayList_spec s.data
    exact ⟨n, congrArg String.mk h1, h2, h3⟩
  · intro h
    show (⟨displayList s.data⟩ : String) = s
    rw [displayList_no_match s.data h]

/-- C2 witness: the amended theorem applied to a message whose only
`(Source: ...)` span is mid-answer: nothing is removed. -/
theorem C2_display_strip_amended_witness :
    displayedText "mid (Source: a) text" = "mid (Source: a) text" :=
  (C2_display_strip_amended "mid (Source: a) text").2 (by decide)

/-- C10: the displayed-text transformation is applied to every message
regardless of sender — a user message ending in a `(Source: ...)` span
also has it stripped — while the citation block is rendered only when
the sender is `ai` and the raw text ends in such a tag. -/
theorem C10_render_sender (sender : Sender) (text : String) :
    (renderMessage sender text).displayed = displayedText text ∧
    ((renderMessage sender text).citation ≠ none ↔
      (sender = Sender.ai ∧ citeShown text = true)) ∧
    (renderMessage Sender.user "hi (Source: doc.pdf)").displayed = "hi" := by
  refine ⟨rfl, ?_, by decide⟩
  cases sender with
  | user => simp [renderMessage]
  | ai =>
    cases h : citeTag text.data with
    | none => simp [renderMessage, citeShown, h]
    | some t => simp [renderMessage, citeShown, h]

/-!
### Lemmas about the anchored citation patterns
-/

/-- A span of the replace pattern cannot start at a character other
than the opening parenthesis. -/
theorem parenCore_cons_ne (c : Char) (l : List Char) (h : ¬ c = '(') :
    parenCore (c :: l) = false := by
  cases l with
  | nil => rfl
  | cons c1 rest => simp [parenCore, h]

/-- Over a block free of opening parentheses, a tail match is exactly a
whitespace run followed by a tail match of the rest. -/
theorem tailMatch_append (y r : List Char) (hy : ∀ c ∈ y, ¬ c = '(') :
    tailMatch (y ++ r) = (y.all isJsSpace && tailMatch r) := by
  induction y with
  | nil => simp
  | cons c y ih =>
    have hc := parenCore_cons_ne c (y ++ r) (hy c (List.mem_cons_self c y))
    rw [List.cons_append]
    show (parenCore (c :: (y ++ r)) || (isJsSpace c && tailMatch (y ++ r))) = _
    rw [hc, ih (fun d hd => hy d (List.mem_cons_of_mem c hd))]
    simp [Bool.and_assoc]

/-- If the last character of a block is not whitespace, no nonempty
suffix of it is all whitespace. -/
theorem no_space_suffix_of_last (b : List Char)
    (h : b.getLast?.all (fun c => !isJsSpace c) = true) :
    ∀ y, y ≠ [] → y <:+ b → y.all isJsSpace = false := by
  intro y hy hyy
  rcases List.eq_nil_or_concat y with h1 | ⟨y0, a, rfl⟩
  · exact absurd h1 hy
  · obtain ⟨x, hx⟩ := hyy
    have hg : b.getLast? = some a := by
      rw [← hx, List.concat_eq_append, ← List.append_assoc]
      exact List.getLast?_concat _
    rw [hg] at h
    have ha : isJsSpace a = false := by simpa using h
    cases hall : (y0.concat a).all isJsSpace with
    | false => rfl
    | true =>
      have hsp : isJsSpace a = true :=
        List.all_eq_true.mp hall a (by simp [List.concat_eq_append])
      rw [hsp] at ha
      cases ha

/-- The replace passes over a block with no opening parenthesis and no
all-whitespace suffix, acting only on what follows it. -/
theorem displayList_append (b r : List Char) (hb : ∀ c ∈ b, ¬ c = '(')
    (hl : ∀ y, y ≠ [] → y <:+ b → y.all isJsSpace = false) :
    displayList (b ++ r) = b ++ displayList r := by
  induction b with
  | nil => rfl
  | cons c b ih =>
    have ht : tailMatch (c :: (b ++ r)) = false := by
      rw [← List.cons_append, tailMatch_append (c :: b) r hb,
        hl (c :: b) (by simp) (List.suffix_refl _)]
      rfl
    have ih2 := ih (fun d hd => hb d (List.mem_cons_of_mem c hd))
      (fun y hy hyy => hl y hy (hyy.trans (List.suffix_cons c b)))
    simp [displayList, ht, ih2]

/-- Stripping the exact characters `ource:` succeeds on themselves. -/
theorem stripExact_ource (r : List Char) :
    stripExact ourceChars (ourceChars ++ r) = some r := rfl

/-- Stripping `ource:` case-insensitively succeeds on the lowercase
characters themselves. -/
theorem stripCI_ource (r : List Char) :
    stripCI ourceChars (ourceChars ++ r) = some r := rfl

/-- A replace-pattern span on a literal `(S` + `ource:` front reduces
to its closing test. -/
theorem parenCore_tag (r : List Char) :
    parenCore ('(' :: 'S' :: (ourceChars ++ r)) = closeSplit r := rfl

/-- An `i`-flagged span on a literal `(S` + `ource:` front reduces to
its closing test. -/
theorem anchorAt_tag (r : List Char) :
    anchorAt ('(' :: 'S' :: (ourceChars ++ r)) = closeEnd r := rfl

/-- A line-terminator-free block followed by a final parenthesis closes
the `i`-flagged pattern. -/
theorem closeEnd_append (m : List Char) (hm : ∀ c ∈ m, isLineTerm c = false) :
    closeEnd (m ++ [')']) = true := by
  induction m with
  | nil => rfl
  | cons c m ih =>
    have step : closeEnd (c :: (m ++ [')'])) = (!isLineTerm c && closeEnd (m ++ [')'])) := by
      cases m <;> rfl
    rw [List.cons_append, step, hm c (List.mem_cons_self c m),
      ih (fun d hd => hm d (List.mem_cons_of_mem c hd))]
    rfl

/-- A line-terminator-free block, a parenthesis, then whitespace closes
the replace pattern. -/
theorem closeSplit_append (m t : List Char) (hm : ∀ c ∈ m, isLineTerm c = false)
    (ht : ∀ c ∈ t, isJsSpace c = true) : closeSplit (m ++ ')' :: t) = true := by
  induction m with
  | nil =>
    have hall : t.all isJsSpace = true := List.all_eq_true.mpr ht
    simp [closeSplit, hall]
  | cons c m ih =>
    rw [List.cons_append]
    show ((c == ')' && (m ++ ')' :: t).all isJsSpace) ||
      (!isLineTerm c && closeSplit (m ++ ')' :: t))) = true
    rw [hm c (List.mem_cons_self c m), ih (fun d hd => hm d (List.mem_cons_of_mem c hd))]
    simp

/-- A successful case-insensitive strip means the input starts with
some block followed by the returned rest. -/
theorem stripCI_decompose (ps : List Char) :
    ∀ cs r, stripCI ps cs = some r → ∃ pre, cs = pre ++ r := by
  induction ps with
  | nil =>
    intro cs r h
    simp [stripCI] at h
    exact ⟨[], by simp [h]⟩
  | cons p ps ih =>
    intro cs r h
    cases cs with
    | nil => simp [stripCI] at h
    | cons c cs =>
      simp only [stripCI] at h
      split at h
      · obtain ⟨pre, hp⟩ := ih cs r h
        exact ⟨c :: pre, by simp [hp]⟩
      · exact absurd h (by simp)

/-- A successful closing test means the input ends with the
parenthesis. -/
theorem closeEnd_decompose (r : List Char) (h : closeEnd r = true) :
    ∃ r0, r = r0 ++ [')'] := by
  induction r with
  | nil => simp [closeEnd] at h
  | cons c rest ih =>
    cases rest with
    | nil =>
      have hc : c = ')' := by simpa [closeEnd] using h
      exact ⟨[], by simp [hc]⟩
    | cons c2 rest2 =>
      have h2 : closeEnd (c2 :: rest2) = true :=
        (Bool.and_eq_true_iff.mp (show (!isLineTerm c && closeEnd (c2 :: rest2)) = true from h)).2
      obtain ⟨r0, hr⟩ := ih h2
      exact ⟨c :: r0, by simp [hr]⟩

/-- Two concatenations ending in a singleton have equal last
elements. -/
theorem concat_last_eq {α : Type} (x y : List α) (a b : α) (h : x ++ [a] = y ++ [b]) :
    a = b := by
  have hg := congrArg List.getLast? h
  rw [List.getLast?_concat, List.getLast?_concat] at hg
  exact Option.some.inj hg

/-- An `i`-flagged anchored span forces the final character to be the
closing parenthesis. -/
theorem anchorAt_last (l : List Char) (c : Char) (h : anchorAt (l ++ [c]) = true) :
    c = ')' := by
  cases l with
  | nil => simp [anchorAt] at h
  | cons c0 l1 =>
    cases l1 with
    | nil => simp [anchorAt, ourceChars, stripCI] at h
    | cons c1 l2 =>
      have h2 : (match stripCI ourceChars (l2 ++ [c]) with
          | some r => closeEnd r
          | none => false) = true :=
        (Bool.and_eq_true_iff.mp (show (((c0 == '(') && (c1 == 'S' || c1 == 's')) &&
          (match stripCI ourceChars (l2 ++ [c]) with
           | some r => closeEnd r
           | none => false)) = true from h)).2
      cases hs : stripCI ourceChars (l2 ++ [c]) with
      | none => simp [hs] at h2
      | some r =>
        simp only [hs] at h2
        obtain ⟨pre, hp⟩ := stripCI_decompose _ _ _ hs
        obtain ⟨r0, hr⟩ := closeEnd_decompose r h2
        rw [hr] at hp
        exact concat_last_eq l2 (pre ++ r0) c ')' (by rw [hp, List.append_assoc])

/-- A string whose final character is not a parenthesis has no
`i`-flagged anchored match anywhere. -/
theorem citeTag_concat_none (l : List Char) (c : Char) (hc : ¬ c = ')') :
    citeTag (l ++ [c]) = none := by
  induction l with
  | nil => simp [citeTag, anchorAt]
  | cons c0 l ih =>
    have ha : anchorAt (c0 :: (l ++ [c])) = false := by
      cases hb : anchorAt (c0 :: (l ++ [c])) with
      | false => rfl
      | true => exact absurd (anchorAt_last (c0 :: l) c (by simpa using hb)) hc
    simp [citeTag, ha, ih]

/-- An anchored span somewhere in the string makes the citation-shown
match succeed. -/
theorem citeTag_isSome_append (x y : List Char) (hy : anchorAt y = true) :
    (citeTag (x ++ y)).isSome = true := by
  induction x with
  | nil =>
    cases y with
    | nil => simp [anchorAt] at hy
    | cons c rest => simp [citeTag, hy]
  | cons c x ih =>
    cases hb : anchorAt (c :: (x ++ y)) with
    | true => simp [citeTag, hb]
    | false => simp [citeTag, hb, ih]

/-- A full whitespace-then-tag tail matches the replace pattern. -/
theorem tailMatch_space_tag (mid t : List Char)
    (hmid : ∀ c ∈ mid, isLineTerm c = false) (ht : ∀ c ∈ t, isJsSpace c = true) :
    tailMatch (' ' :: '(' :: 'S' :: (ourceChars ++ (mid ++ ')' :: t))) = true := by
  have hpc : parenCore ('(' :: 'S' :: (ourceChars ++ (mid ++ ')' :: t))) = true := by
    rw [parenCore_tag]
    exact closeSplit_append mid t hmid ht
  have hin : tailMatch ('(' :: 'S' :: (ourceChars ++ (mid ++ ')' :: t))) = true := by
    show (parenCore ('(' :: 'S' :: (ourceChars ++ (mid ++ ')' :: t))) || _) = true
    rw [hpc]
    rfl
  show (parenCore (' ' :: '(' :: 'S' :: (ourceChars ++ (mid ++ ')' :: t))) ||
    (isJsSpace ' ' && tailMatch ('(' :: 'S' :: (ourceChars ++ (mid ++ ')' :: t))))) = true
  rw [hin, show isJsSpace ' ' = true from by decide]
  simp

/-- A string is empty exactly when its character list is. -/
theorem str_eq_empty_of_data {s : String} (h : s.data = []) : s = "" :=
  String.ext h

/-- C7 counterexample: an answer with a trailing space after the tag
has the tag removed from the displayed text, yet the citation is NOT
shown: the citation-shown regex has no trailing-whitespace tolerance. -/
theorem C7_trailing_ws_cex :
    displayedText "A (Source: f.pdf) " = "A" ∧
    citeShown "A (Source: f.pdf) " = false := by
  decide

/-- C7 amended: for an answer of the form
`body` + ` (Source: ` + `text` + `)` + trailing whitespace (with `body`
free of opening parentheses and not ending in whitespace, and `text`
free of closing parentheses and line terminators), the displayed text
always has the tag removed — trailing whitespace is tolerated
there — but the citation block is shown iff NO whitespace follows the
tag: the closing parenthesis must be the final character. -/
theorem C7_trailing_ws_amended (body text ws : String)
    (hb : body.data.all (fun c => !(c == '(')) = true)
    (hbl : body.data.getLast?.all (fun c => !isJsSpace c) = true)
    (ht : text.data.all (fun c => !isLineTerm c && !(c == ')')) = true)
    (hw : ws.data.all isJsSpace = true) :
    displayedText (body ++ " (Source: " ++ text ++ ")" ++ ws) = body ∧
    (citeShown (body ++ " (Source: " ++ text ++ ")" ++ ws) = true ↔ ws = "") := by
  have hb' : ∀ c ∈ body.data, ¬ c = '(' := by
    intro c hcm
    have := List.all_eq_true.mp hb c hcm
    simpa using this
  have htL : ∀ c ∈ text.data, isLineTerm c = false := by
    intro c hcm
    have := List.all_eq_true.mp ht c hcm
    simp at this
    exact this.1
  have hw' : ∀ c ∈ ws.data, isJsSpace c = true := List.all_eq_true.mp hw
  have hm : ∀ c ∈ (' ' :: text.data), isLineTerm c = false := by
    intro c hcm
    rcases List.mem_cons.mp hcm with h1 | h2
    · rw [h1]; decide
    · exact htL c h2
  have hdata : (body ++ " (Source: " ++ text ++ ")" ++ ws).data =
      body.data ++ (' ' :: '(' :: 'S' :: (ourceChars ++ ((' ' :: text.data) ++ ')' :: ws.data))) := by
    simp [ourceChars]
  constructor
  · have h1 : displayList ((body ++ " (Source: " ++ text ++ ")" ++ ws).data) = body.data := by
      rw [hdata, displayList_append body.data _ hb' (no_space_suffix_of_last body.data hbl)]
      rw [show displayList (' ' :: '(' :: 'S' :: (ourceChars ++ (' ' :: text.data ++ ')' :: ws.data))) = ([] : List Char) from by
        have htm : tailMatch (' ' :: '(' :: 'S' :: (ourceChars ++ ' ' :: (text.data ++ ')' :: ws.data))) = true :=
          tailMatch_space_tag (' ' :: text.data) ws.data hm hw'
        simp [displayList, htm]]
      simp
    show (⟨displayList ((body ++ " (Source: " ++ text ++ ")" ++ ws).data)⟩ : String) = body
    rw [h1]
  · constructor
    · intro hshown
      rcases List.eq_nil_or_concat ws.data with hnil | ⟨w0, a, hw0⟩
      · exact str_eq_empty_of_data hnil
      · exfalso
        have ha : isJsSpace a = true := hw' a (by rw [hw0]; simp [List.concat_eq_append])
        have hane : ¬ a = ')' := by
          intro hh
          rw [hh] at ha
          exact absurd ha (by decide)
        have hnone : citeTag ((body ++ " (Source: " ++ text ++ ")" ++ ws).data) = none := by
          rw [hdata, hw0, List.concat_eq_append]
          have := citeTag_concat_none
            (body.data ++ (' ' :: '(' :: 'S' :: (ourceChars ++ ((' ' :: text.data) ++ ')' :: w0)))) a hane
          simpa [List.append_assoc] using this
        have hshown2 : (citeTag ((body ++ " (Source: " ++ text ++ ")" ++ ws).data)).isSome = true := hshown
        rw [hnone] at hshown2
        cases hshown2
    · intro hws
      subst hws
      have hanch : anchorAt ('(' :: 'S' :: (ourceChars ++ ((' ' :: text.data) ++ [')']))) = true := by
        rw [anchorAt_tag]
        exact closeEnd_append (' ' :: text.data) hm
      have := citeTag_isSome_append (body.data ++ [' ']) _ hanch
      show (citeTag ((body ++ " (Source: " ++ text ++ ")" ++ "").data)).isSome = true
      rw [hdata]
      simpa [List.append_assoc] using this

/-- C7 witness: the amended theorem at a concrete answer with one
trailing space: the tag is stripped from the display and the
citation-shown condition reduces to the false equation `" " = ""`. -/
theorem C7_trailing_ws_amended_witness :
    displayedText ("A" ++ " (Source: " ++ "f.pdf" ++ ")" ++ " ") = "A" ∧
    (citeShown ("A" ++ " (Source: " ++ "f.pdf" ++ ")" ++ " ") = true ↔ (" " : String) = "") :=
  C7_trailing_ws_amended "A" "f.pdf" " " (by decide) (by decide) (by decide) (by decide)

/-!
### Lemmas about the `formatSourceCitation` regex
-/

/-- Matching `\([Ss]ource: ` succeeds on a literal `(Source: ` front. -/
theorem sourceOpen_tag (r : List Char) :
    sourceOpen ('(' :: 'S' :: (ourceSpChars ++ r)) = some r := rfl

/-- Stripping `, page ` case-insensitively succeeds on the lowercase
characters themselves. -/
theorem stripCI_page (r : List Char) :
    stripCI pageChars (pageChars ++ r) = some r := rfl

/-- The digit run before the final parenthesis parses to itself. -/
theorem digitsClose_append (d : List Char) (hd : ∀ c ∈ d, c.isDigit = true) :
    digitsClose (d ++ [')']) = some d := by
  induction d with
  | nil => rfl
  | cons c d ih =>
    have step : digitsClose (c :: (d ++ [')'])) =
        (if c.isDigit then (digitsClose (d ++ [')'])).map (c :: ·) else none) := by
      cases d <;> rfl
    rw [List.cons_append, step, hd c (List.mem_cons_self c d),
      ih (fun x hx => hd x (List.mem_cons_of_mem c hx))]
    rfl

/-- A successful page-group match ends the lazy search immediately with
an empty group 1. -/
theorem citationBody_of_pageClose (l d : List Char) (h : pageClose l = some d)
    (hl : l ≠ []) : citationBody l = some ([], some d) := by
  cases l with
  | nil => exact absurd rfl hl
  | cons c rest => simp [citationBody, h]

/-- The lazy group 1 passes over a block containing no comma, no
closing parenthesis and no line terminator. -/
theorem citationBody_text (t tail : List Char)
    (h1 : ∀ c ∈ t, matchCI ',' c = false)
    (h2 : ∀ c ∈ t, ¬ c = ')')
    (h3 : ∀ c ∈ t, isLineTerm c = false) :
    citationBody (t ++ tail) = (citationBody tail).map (fun pr => (t ++ pr.1, pr.2)) := by
  induction t with
  | nil =>
    rw [List.nil_append]
    cases citationBody tail with
    | none => rfl
    | some pr => rfl
  | cons c t ih =>
    have hs : stripCI pageChars (c :: (t ++ tail)) = none := by
      show (if matchCI ',' c then stripCI [' ', 'p', 'a', 'g', 'e', ' '] (t ++ tail) else none) = none
      rw [h1 c (List.mem_cons_self c t)]
      rfl
    have hpc : pageClose (c :: (t ++ tail)) = none := by
      simp [pageClose, hs]
    have hcp : (c == ')') = false := by
      have := h2 c (List.mem_cons_self c t)
      simpa using this
    have hlt : isLineTerm c = false := h3 c (List.mem_cons_self c t)
    have ih2 := ih (fun d hd => h1 d (List.mem_cons_of_mem c hd))
      (fun d hd => h2 d (List.mem_cons_of_mem c hd))
      (fun d hd => h3 d (List.mem_cons_of_mem c hd))
    rw [List.cons_append]
    simp [citationBody, hpc, hcp, hlt, ih2, Option.map_map]
    cases citationBody tail <;> rfl

/-- The head case of the leftmost search for the inner regex. -/
theorem findCite_head (c : Char) (rest r : List Char) (pr : List Char × Option (List Char))
    (h1 : sourceOpen (c :: rest) = some r) (h2 : citationBody r = some pr) :
    findCite (c :: rest) = some pr := by
  simp [findCite, h1, h2]

/-- C8 counterexample: `ftp:dir/file.txt` begins with the URL scheme
`ftp` in the sense of the spec, yet the code — whose test is
`startsWith("http") || includes("://")` — classifies it as a file and
strips the path, modifying the identifier. -/
theorem C8_url_scheme_cex :
    specBeginsWithUrlScheme "ftp:dir/file.txt" = true ∧
    citeKindOf "ftp:dir/file.txt" = CiteKind.file ∧
    formatSourceCitation "(Source: ftp:dir/file.txt)" = "(Source: file.txt)" ∧
    "(Source: file.txt)" ≠ ("(Source: ftp:dir/file.txt)" : String) := by
  decide

/-- C8 amended: for every trailing citation tag whose text starts with
`http` or contains `://` (rather than: begins with any URL scheme), the
parser classifies it as a URL and reproduces the tag unchanged — the
identifier is the full text with no path-segment stripping, and the
page suffix is preserved when present. -/
theorem C8_url_amended (text : String) (pg : Option String)
    (ht : text.data.all (fun c => !matchCI ',' c && !(c == ')') && !isLineTerm c) = true)
    (hpg : ∀ d, pg = some d → d ≠ "" ∧ d.data.all Char.isDigit = true)
    (hurl : startsWithStr text "http" = true ∨ hasSubstr "://".data text.data = true) :
    parseCiteTag (tagOf text pg) = some ⟨text, pg⟩ ∧
    citeKindOf text = CiteKind.url ∧
    formatSourceCitation (tagOf text pg) = tagOf text pg := by
  have h1 : ∀ c ∈ text.data, matchCI ',' c = false := by
    intro c hcm
    have hb := List.all_eq_true.mp ht c hcm
    have hb1 := (Bool.and_eq_true_iff.mp hb).1
    have hb11 := (Bool.and_eq_true_iff.mp hb1).1
    simpa using hb11
  have h2 : ∀ c ∈ text.data, ¬ c = ')' := by
    intro c hcm
    have hb := List.all_eq_true.mp ht c hcm
    have hb1 := (Bool.and_eq_true_iff.mp hb).1
    have hb12 := (Bool.and_eq_true_iff.mp hb1).2
    simpa using hb12
  have h3 : ∀ c ∈ text.data, isLineTerm c = false := by
    intro c hcm
    have hb := List.all_eq_true.mp ht c hcm
    have hb2 := (Bool.and_eq_true_iff.mp hb).2
    simpa using hb2
  have hparse : parseCiteTag (tagOf text pg) = some ⟨text, pg⟩ := by
    cases pg with
    | none =>
      have hdata : (tagOf text none).data =
          '(' :: 'S' :: (ourceSpChars ++ (text.data ++ [')'])) := by
        simp [tagOf, pageInfoStr, ourceSpChars]
      have hbody : citationBody (text.data ++ [')']) = some (text.data, none) := by
        rw [citationBody_text text.data [')'] h1 h2 h3]
        simp [show citationBody [')'] = some ([], none) from rfl]
      have hf := findCite_head '(' ('S' :: (ourceSpChars ++ (text.data ++ [')'])))
        (text.data ++ [')']) (text.data, none) (sourceOpen_tag _) hbody
      simp only [parseCiteTag]
      rw [hdata, hf]
      rfl
    | some d =>
      obtain ⟨hdne, hdig⟩ := hpg d rfl
      have hdig' : ∀ c ∈ d.data, c.isDigit = true := List.all_eq_true.mp hdig
      have hie : d.data.isEmpty = false := by
        cases hdd : d.data with
        | nil => exact absurd (str_eq_empty_of_data hdd) hdne
        | cons a l => rfl
      have hpc : pageClose (pageChars ++ (d.data ++ [')'])) = some d.data := by
        simp [pageClose, stripCI_page, digitsClose_append d.data hdig', hie]
      have hbody2 : citationBody (pageChars ++ (d.data ++ [')'])) = some ([], some d.data) :=
        citationBody_of_pageClose _ _ hpc (by simp [pageChars])
      have hbody : citationBody (text.data ++ (pageChars ++ (d.data ++ [')']))) =
          some (text.data, some d.data) := by
        rw [citationBody_text text.data _ h1 h2 h3, hbody2]
        simp
      have hdata : (tagOf text (some d)).data =
          '(' :: 'S' :: (ourceSpChars ++ (text.data ++ (pageChars ++ (d.data ++ [')'])))) := by
        simp [tagOf, pageInfoStr, ourceSpChars, pageChars]
      have hf := findCite_head '('
        ('S' :: (ourceSpChars ++ (text.data ++ (pageChars ++ (d.data ++ [')'])))))
        (text.data ++ (pageChars ++ (d.data ++ [')']))) (text.data, some d.data)
        (sourceOpen_tag _) hbody
      simp only [parseCiteTag]
      rw [hdata, hf]
      rfl
  have hkind : citeKindOf text = CiteKind.url := by
    rcases hurl with h | h
    · simp [citeKindOf, h]
    · simp [citeKindOf, h]
  refine ⟨hparse, hkind, ?_⟩
  simp only [formatSourceCitation, hparse, hkind]
  rfl

/-- C8 witness: the amended theorem at the specification example URL
citation. -/
theorem C8_url_amended_witness :
    parseCiteTag (tagOf "https://example.com/doc" none) =
      some ⟨"https://example.com/doc", none⟩ ∧
    citeKindOf "https://example.com/doc" = CiteKind.url ∧
    formatSourceCitation (tagOf "https://example.com/doc" none) =
      tagOf "https://example.com/doc" none :=
  C8_url_amended "https://example.com/doc" none (by decide)
    (fun d h => nomatch h) (Or.inl (by decide))

end DocuMind
